import Mathlib

/- Shallow embedding of src/parse.c, the incremental reader of a small
   Lisp-family language.  Input bytes are modelled as Nat (byte values
   0..255, written as numeric literals with their ASCII meaning noted).
   C doubles are modelled as exact integer fractions (structure
   GstNumber below): every arithmetic step performed by the numeric
   decoder (multiply by 10, add a digit, multiply by 0.1, powers of
   ten and their reciprocals) is exact on such fractions.
   GstNumber.toRat maps a fraction into ℚ for specification
   statements.  The parse stack is a Lean list whose head is the top
   frame (C keeps the top at data[count - 1]); the capacity-growth
   behaviour of parser_push, which depends on the backing array, is
   modelled separately by parser_push_arr further below. -/

/-- Exact fraction num/den standing in for the C double type
    (typedef GstNumber).  The decoder only ever divides by nonzero
    powers of ten, so exact fractions follow the C computation
    step by step. -/
structure GstNumber where
  num : Int
  den : Int
deriving DecidableEq

/-- Multiplication of fractions. -/
def GstNumber.mul (a b : GstNumber) : GstNumber := ⟨a.num * b.num, a.den * b.den⟩

/-- Addition of fractions by cross multiplication. -/
def GstNumber.add (a b : GstNumber) : GstNumber :=
  ⟨a.num * b.den + b.num * a.den, a.den * b.den⟩

/-- Division of fractions. -/
def GstNumber.div (a b : GstNumber) : GstNumber := ⟨a.num * b.den, a.den * b.num⟩

/-- Strict comparison by cross multiplication.  All denominators
    arising in the decoder are positive (they are products of powers
    of ten), for which this is the comparison the C code performs. -/
def GstNumber.blt (a b : GstNumber) : Bool := a.num * b.den < b.num * a.den

/-- Truncation toward zero, the C double-to-int conversion applied
    when the recursively parsed exponent is handed to exp10. -/
def GstNumber.toIntTrunc (x : GstNumber) : Int :=
  Int.sign x.num * ((x.num.natAbs / x.den.natAbs : Nat) : Int)

/-- Value of a fraction as a rational number, for specification
    statements. -/
def GstNumber.toRat (x : GstNumber) : ℚ := (x.num : ℚ) / (x.den : ℚ)

/-- Byte list of a Lean string literal, for writing inputs and the
    interned constants "array", "obj", "quote", "nil", "true",
    "false" the way the C source writes C string literals. -/
def strBytes (s : String) : List Nat := s.data.map Char.toNat

/-- Tagged values produced by the parser (GstValue).  Strings and
    buffers are byte lists; GST_ARRAY holds an ordered list of
    values. -/
inductive GstValue where
  | nil
  | boolean (b : Bool)
  | number (n : GstNumber)
  | str (s : List Nat)
  | array (a : List GstValue)

/-- Sub-state of a string-literal frame (the anonymous enum inside
    GstParseState.buf.string).  escapeUnicode and escapeHex are
    declared but no transition enters them. -/
inductive StrState where
  | base
  | escape
  | escapeUnicode
  | escapeHex
deriving DecidableEq

/-- Frame kind (enum ParseType, constructors PTYPE_ROOT, PTYPE_FORM,
    PTYPE_STRING, PTYPE_TOKEN). -/
inductive ParseType where
  | ptRoot
  | ptForm
  | ptString
  | ptToken
deriving DecidableEq

/-- One frame of the parse stack (struct GstParseState), with the
    accumulator that the C union gives its kind: a form carries its
    closing delimiter and an array of items, a string carries its
    byte buffer and escape sub-state, a token carries its byte
    buffer. -/
inductive GstParseState where
  | root
  | form (endDelimiter : Nat) (array : List GstValue)
  | pstring (buffer : List Nat) (state : StrState)
  | token (buffer : List Nat)

/-- Parser status (GST_PARSER_PENDING, GST_PARSER_FULL,
    GST_PARSER_ERROR). -/
inductive GstParserStatus where
  | pending
  | full
  | error
deriving DecidableEq

/-- The externally visible parser object (struct GstParser).  data is
    the parse stack with the TOP frame at the HEAD of the list; the C
    fields vm, cap and count concern the backing allocation only and
    are treated by parser_push_arr below. -/
structure GstParser where
  data : List GstParseState
  status : GstParserStatus
  error : Option String
  value : GstValue
  index : Nat

/-- Macro p_error: record an error message and flip the status. -/
def p_error (p : GstParser) (e : String) : GstParser :=
  { p with error := some e, status := GstParserStatus.error }

/-- Remove the top state from the parse stack (parser_pop).  The C
    function also returns a pointer to the removed frame, which every
    caller ignores. -/
def parser_pop (p : GstParser) : GstParser :=
  match p.data with
  | [] => p_error p "parser stack underflow"
  | _ :: rest => { p with data := rest }

/-- Fresh frame contents written by parser_push: the form case reads
    the triggering byte 40 "(" / 91 "[" / 123 "{" to pick the closing
    delimiter 41 ")" / 93 "]" / 125 "}" and seeds the item array with
    the sentinel string "array" for 91 and "obj" for 123 (the 0
    delimiter in the final branch stands for the uninitialized field
    the C code leaves when the byte is none of the three, which no
    caller triggers). -/
def mk_frame (t : ParseType) (c : Nat) : GstParseState :=
  match t with
  | ParseType.ptRoot => GstParseState.root
  | ParseType.ptString => GstParseState.pstring [] StrState.base
  | ParseType.ptToken => GstParseState.token []
  | ParseType.ptForm =>
      GstParseState.form
        (if c = 40 then 41 else if c = 91 then 93 else if c = 123 then 125 else 0)
        (if c = 91 then [GstValue.str (strBytes "array")]
         else if c = 123 then [GstValue.str (strBytes "obj")]
         else [])

/-- Add a new state to the parse stack (parser_push), for pushes that
    stay within the current capacity (count < cap), where the C
    function only increments the count and writes the fresh frame.
    The count >= cap growth path is deliberately not part of this
    list model: on that path the C code installs a fresh 2 * count
    BYTE allocation without copying a single old frame, destroying
    the stack contents; that path is modelled by parser_push_arr
    below and its consequences are settled by
    parser_push_at_capacity_loses_frames and
    root_frame_lost_at_capacity.  Every concrete input evaluated in
    this file keeps the stack within the initial capacity of 10
    frames, so all its pushes take the path modelled here, and the
    capacity-bounded statements below carry the count < cap side
    condition explicitly. -/
def parser_push (p : GstParser) (t : ParseType) (c : Nat) : GstParser :=
  { p with data := mk_frame t c :: p.data }

/-- Append a value to the top-most state (parser_append): a root top
    captures the value and completes the parse, a form top pushes the
    value onto its item array, anything else is the internal
    "Expected container type." error. -/
def parser_append (p : GstParser) (x : GstValue) : GstParser :=
  match p.data with
  | [] => p_error p "parser stack underflow"
  | GstParseState.root :: _ =>
      { p with value := x, status := GstParserStatus.full }
  | GstParseState.form d arr :: rest =>
      { p with data := GstParseState.form d (arr ++ [x]) :: rest }
  | _ => p_error p "Expected container type."

/-- Whitespace class (is_whitespace): space, tab, newline, carriage
    return, NUL and comma. -/
def is_whitespace (c : Nat) : Bool :=
  decide (c = 32 ∨ c = 9 ∨ c = 10 ∨ c = 13 ∨ c = 0 ∨ c = 44)

/-- Symbol-constituent class (is_symbol_char), by the same inclusive
    ASCII ranges the C code tests: a-z, A-Z, 0-:, <-@, 42-47 (star
    through slash), #-&, and the single bytes underscore, caret,
    bang. -/
def is_symbol_char (c : Nat) : Bool :=
  if 97 ≤ c ∧ c ≤ 122 then true
  else if 65 ≤ c ∧ c ≤ 90 then true
  else if 48 ≤ c ∧ c ≤ 58 then true
  else if 60 ≤ c ∧ c ≤ 64 then true
  else if 42 ≤ c ∧ c ≤ 47 then true
  else if 35 ≤ c ∧ c ≤ 38 then true
  else if c = 95 then true
  else if c = 94 then true
  else if c = 33 then true
  else false

/-- Squaring loop inside exp10: double currentPower while
    currentPower * 2 still fits below power, squaring the result in
    step.  The C while loop is written with explicit fuel to keep the
    recursion structural; exp10_go_eq_pow below shows the returned
    value is correct for every fuel, so the fuel only bounds the
    iteration count the way the loop condition does. -/
def exp10_loop : Nat → Nat → GstNumber → Nat → GstNumber × Nat
  | 0, _, result, currentPower => (result, currentPower)
  | fuel + 1, power, result, currentPower =>
      if currentPower * 2 ≤ power then
        exp10_loop fuel power (result.mul result) (currentPower * 2)
      else (result, currentPower)

/-- Positive case of exp10 (exponentiation by squaring followed by a
    recursive call on the remaining power), again with structural
    fuel; the recursion in C terminates because the loop always
    returns currentPower at least 1. -/
def exp10_go : Nat → Nat → GstNumber
  | 0, _ => ⟨1, 1⟩
  | fuel + 1, power =>
      if power = 0 then ⟨1, 1⟩
      else
        (exp10_loop power power ⟨10, 1⟩ 1).1.mul
          (exp10_go fuel (power - (exp10_loop power power ⟨10, 1⟩ 1).2))

/-- Integer power of ten for nonnegative exponents. -/
def exp10Nat (power : Nat) : GstNumber := exp10_go power power

/-- Integer power of 10 (exp10): zero and positive powers via the
    squaring recursion, negative powers as 1 / exp10 (-power). -/
def exp10 (power : Int) : GstNumber :=
  if 0 ≤ power then exp10Nat power.toNat
  else GstNumber.div ⟨1, 1⟩ (exp10Nat (-power).toNat)

/-- Sign handling at the start of read_number: a leading 45 "-" sets
    sign to -1 and advances, a leading 43 "+" advances, anything else
    leaves the range alone.  On the empty range the C code compares
    one out-of-bounds byte, but returns failure immediately afterward
    whatever that byte was, so the empty case is routed to the
    failure that follows. -/
def sign_split (s : List Nat) : Int × List Nat :=
  match s with
  | c :: rest => if c = 45 then (-1, rest) else if c = 43 then (1, rest) else (1, s)
  | [] => (1, [])

/-- Scanning loop of read_number in force-integer mode: the branches
    for 46 "." and 101/69 "e"/"E" are disabled by the flag, so every
    byte must be an ASCII digit (48..57); place never leaves 1, so
    only the integer accumulation accum * 10 + digit runs.  The final
    value is accum * sign * exp with exp still 1. -/
def rn_loop_int : List Nat → Int → GstNumber → Option GstNumber
  | [], sign, accum => some ((accum.mul ⟨sign, 1⟩).mul ⟨1, 1⟩)
  | c :: rest, sign, accum =>
      if 48 ≤ c ∧ c ≤ 57 then
        rn_loop_int rest sign ((accum.mul ⟨10, 1⟩).add ⟨(c : Int) - 48, 1⟩)
      else none

/-- read_number with forceInt set (the mode the exponent is decoded
    in): optional sign, then failure when nothing follows the sign,
    then the force-integer scanning loop. -/
def read_number_int (s : List Nat) : Option GstNumber :=
  let sr := sign_split s
  match sr.2 with
  | [] => none
  | _ :: _ => rn_loop_int sr.2 sr.1 ⟨0, 1⟩

/-- Scanning loop of read_number with forceInt unset: 46 "." resets
    place to 0.1; 101/69 "e"/"E" advances, fails when nothing
    remains, recursively decodes the rest in force-integer mode,
    fails when that fails, and otherwise stops with
    accum * sign * exp10 (exponent truncated to int); a digit
    accumulates fractionally when place < 1 and integrally otherwise;
    any other byte fails. -/
def rn_loop_noint : List Nat → Int → GstNumber → GstNumber → Option GstNumber
  | [], sign, accum, _ => some ((accum.mul ⟨sign, 1⟩).mul ⟨1, 1⟩)
  | c :: rest, sign, accum, place =>
      if c = 46 then rn_loop_noint rest sign accum ⟨1, 10⟩
      else if c = 101 ∨ c = 69 then
        match rest with
        | [] => none
        | _ :: _ =>
            match read_number_int rest with
            | none => none
            | some q => some ((accum.mul ⟨sign, 1⟩).mul (exp10 q.toIntTrunc))
      else if 48 ≤ c ∧ c ≤ 57 then
        if place.blt ⟨1, 1⟩ then
          rn_loop_noint rest sign
            (accum.add ((⟨(c : Int) - 48, 1⟩ : GstNumber).mul place))
            (place.mul ⟨1, 10⟩)
        else
          rn_loop_noint rest sign ((accum.mul ⟨10, 1⟩).add ⟨(c : Int) - 48, 1⟩) place
      else none

/-- Numeric literal decoder (read_number).  The C function takes the
    forceInt flag at run time; since the only recursive call sets the
    flag, and the flag disables the branch making that call, the two
    modes are written as the two functions above and selected
    here. -/
def read_number (s : List Nat) (forceInt : Bool) : Option GstNumber :=
  if forceInt then read_number_int s
  else
    let sr := sign_split s
    match sr.2 with
    | [] => none
    | _ :: _ => rn_loop_noint sr.2 sr.1 ⟨0, 1⟩ ⟨1, 1⟩

/-- Byte-exact comparison of a token slice against a reference
    constant (check_str_const): walk both while the reference has
    bytes left and the slice is not exhausted, succeed only when both
    end together. -/
def check_str_const : List Nat → List Nat → Bool
  | r :: ref, c :: s => if r = c then check_str_const ref s else false
  | [], [] => true
  | _, _ => false

/-- Token classifier (build_token): numeric decode first, then the
    exact constants nil / false / true, then the digit-start error
    "Symbols cannot start with digits." (the C code reads
    buf->data[0]; an empty buffer, which the automaton never
    produces, is read here as byte 0), and finally a bare-symbol
    string of the raw bytes.  Returns the possibly-errored parser
    together with the built value, since the C function writes the
    error into the parser and still returns a GST_NIL value. -/
def build_token (p : GstParser) (buf : List Nat) : GstParser × GstValue :=
  match read_number buf false with
  | some n => (p, GstValue.number n)
  | none =>
      if check_str_const (strBytes "nil") buf then (p, GstValue.nil)
      else if check_str_const (strBytes "false") buf then (p, GstValue.boolean false)
      else if check_str_const (strBytes "true") buf then (p, GstValue.boolean true)
      else if 48 ≤ buf.headD 0 ∧ buf.headD 0 ≤ 57 then
        (p_error p "Symbols cannot start with digits.", GstValue.nil)
      else (p, GstValue.str buf)

/-- Token frame handler (token_state).  Whitespace or a closing
    delimiter 41 ")" / 93 "]" / 125 "}" finishes the token: pop the
    frame, classify the buffered bytes, append the value to the newly
    exposed frame, and report the byte consumed unless it was a
    closing delimiter.  A symbol byte is buffered; anything else is
    the "Expected symbol character." error.  The final case is
    unreachable, because dispatch only routes here when the top frame
    is a token. -/
def token_state (p : GstParser) (c : Nat) : GstParser × Bool :=
  match p.data with
  | GstParseState.token buf :: rest =>
      let isCloser : Bool := decide (c = 41 ∨ c = 93 ∨ c = 125)
      if is_whitespace c ∨ isCloser = true then
        let p1 := parser_pop p
        let r := build_token p1 buf
        (parser_append r.1 r.2, !isCloser)
      else if is_symbol_char c then
        ({ p with data := GstParseState.token (buf ++ [c]) :: rest }, true)
      else (p_error p "Expected symbol character.", true)
  | _ => (p, true)

/-- Escape resolution table inside string_state: n, r, t, f, 0,
    double quote, single quote and z map to their bytes, anything
    else fails. -/
def escape_char (c : Nat) : Option Nat :=
  if c = 110 then some 10
  else if c = 114 then some 13
  else if c = 116 then some 9
  else if c = 102 then some 12
  else if c = 48 then some 0
  else if c = 34 then some 34
  else if c = 39 then some 39
  else if c = 122 then some 0
  else none

/-- String frame handler (string_state).  In the base sub-state a 92
    backslash switches to escape, a 34 double quote pops the frame
    and appends the two-element quote form, and any other byte is
    buffered.  In the escape sub-state the escape table applies, with
    the "Unknown string escape sequence." error on failure.  The two
    reserved sub-states consume the byte with no effect, as the empty
    C switch cases do.  The final case is unreachable (dispatch only
    routes here when the top frame is a string). -/
def string_state (p : GstParser) (c : Nat) : GstParser × Bool :=
  match p.data with
  | GstParseState.pstring buf st :: rest =>
      match st with
      | StrState.base =>
          if c = 92 then
            ({ p with data := GstParseState.pstring buf StrState.escape :: rest }, true)
          else if c = 34 then
            let x := GstValue.str buf
            let arr := GstValue.array [GstValue.str (strBytes "quote"), x]
            (parser_append (parser_pop p) arr, true)
          else
            ({ p with data := GstParseState.pstring (buf ++ [c]) StrState.base :: rest }, true)
      | StrState.escape =>
          match escape_char c with
          | some next =>
              ({ p with data := GstParseState.pstring (buf ++ [next]) StrState.base :: rest }, true)
          | none => (p_error p "Unknown string escape sequence.", true)
      | StrState.escapeHex => (p, true)
      | StrState.escapeUnicode => (p, true)
  | _ => (p, true)

/-- Root handler (root_state): closing delimiters error with
    "Unexpected closing delimiter"; 40 "(" / 91 "[" / 123 "{" push a
    form; 34 a string; whitespace is consumed silently; a symbol byte
    pushes a token frame and reports the byte NOT consumed so it is
    redispatched into the fresh frame; anything else errors with
    "Unexpected character.". -/
def root_state (p : GstParser) (c : Nat) : GstParser × Bool :=
  if c = 93 ∨ c = 41 ∨ c = 125 then (p_error p "Unexpected closing delimiter", true)
  else if c = 40 ∨ c = 91 ∨ c = 123 then (parser_push p ParseType.ptForm c, true)
  else if c = 34 then (parser_push p ParseType.ptString c, true)
  else if is_whitespace c then (p, true)
  else if is_symbol_char c then (parser_push p ParseType.ptToken c, false)
  else (p_error p "Unexpected character.", true)

/-- Form handler (form_state): the frame's own closing delimiter pops
    the frame and appends its items as an array value; every other
    byte falls through to the root handler.  The final case is
    unreachable (dispatch only routes here when the top frame is a
    form). -/
def form_state (p : GstParser) (c : Nat) : GstParser × Bool :=
  match p.data with
  | GstParseState.form d arr :: _ =>
      if c = d then (parser_append (parser_pop p) (GstValue.array arr), true)
      else root_state p c
  | _ => root_state p c

/-- One iteration of the dispatch switch in dispatch_char: route the
    byte to the handler of the current top frame.  An empty stack
    would make the C parser_peek record a stack underflow error
    before the switch dereferences the null result; the model stops
    with that error recorded. -/
def dispatch_step (p : GstParser) (c : Nat) : GstParser × Bool :=
  match p.data with
  | [] => (p_error p "parser stack underflow", true)
  | GstParseState.root :: _ => root_state p c
  | GstParseState.token _ :: _ => token_state p c
  | GstParseState.form _ _ :: _ => form_state p c
  | GstParseState.pstring _ _ :: _ => string_state p c

/-- While loop of dispatch_char: keep redispatching the same byte
    while it is not consumed and the status is still pending.  The
    fuel makes the recursion structural; dispatch_loop_fuel_enough
    below shows stack length + 2 iterations always suffice, so the
    bound dispatch_char passes never cuts the loop short. -/
def dispatch_loop : Nat → GstParser → Nat → GstParser
  | 0, p, _ => p
  | fuel + 1, p, c =>
      if p.status = GstParserStatus.pending then
        let r := dispatch_step p c
        if r.2 then r.1 else dispatch_loop fuel r.1 c
      else p

/-- Handle one input byte (dispatch_char), then advance the byte
    index. -/
def dispatch_char (p : GstParser) (c : Nat) : GstParser :=
  let p1 := dispatch_loop (p.data.length + 2) p c
  { p1 with index := p1.index + 1 }

/-- Byte-feeding loop of gst_parse_cstring: while the status is
    pending and the next byte is not NUL, dispatch the byte and count
    it.  The input is the byte list before the terminating NUL of the
    C string; running off the end of the list is the terminator. -/
def parse_loop : GstParser → List Nat → GstParser × Nat
  | p, [] => (p, 0)
  | p, c :: rest =>
      if p.status = GstParserStatus.pending ∧ c ≠ 0 then
        let p1 := dispatch_char p c
        let r := parse_loop p1 rest
        (r.1, r.2 + 1)
      else (p, 0)

/-- Public feed entry point (gst_parse_cstring): reset the status to
    pending, then run the feeding loop; returns the parser and the
    number of bytes read. -/
def gst_parse_cstring (p : GstParser) (s : List Nat) : GstParser × Nat :=
  parse_loop { p with status := GstParserStatus.pending } s

/-- Freshly initialized parser (gst_parser): empty stack, pending
    status, nil value, then one root frame pushed with the dummy
    byte 32. -/
def gst_parser_new : GstParser :=
  parser_push
    { data := [], status := GstParserStatus.pending, error := none,
      value := GstValue.nil, index := 0 }
    ParseType.ptRoot 32

/-- Feeding a list of chunks by repeated gst_parse_cstring calls,
    unconditionally, summing the byte counts. -/
def feed_chunks : GstParser → List (List Nat) → GstParser × Nat
  | p, [] => (p, 0)
  | p, ch :: rest =>
      let r := gst_parse_cstring p ch
      let r2 := feed_chunks r.1 rest
      (r2.1, r.2 + r2.2)

/-- Feeding a list of chunks by repeated gst_parse_cstring calls
    under the caller discipline of section 3 of the spec: stop as
    soon as the parser is no longer pending. -/
def feed_chunks_while_pending : GstParser → List (List Nat) → GstParser × Nat
  | p, [] => (p, 0)
  | p, ch :: rest =>
      if p.status = GstParserStatus.pending then
        let r := gst_parse_cstring p ch
        let r2 := feed_chunks_while_pending r.1 rest
        (r2.1, r.2 + r2.2)
      else (p, 0)

/-- Stack shape invariant: a single root frame sits at the bottom of
    the stack (index 0 of the C array) and nowhere else. -/
def stack_rooted (l : List GstParseState) : Prop :=
  ∃ rest, l = rest ++ [GstParseState.root] ∧ GstParseState.root ∉ rest

/-- Parser states reachable through the public interface: the fresh
    parser, and any number of feed calls. -/
inductive Reachable : GstParser → Prop
  | init : Reachable gst_parser_new
  | step (p : GstParser) (s : List Nat) : Reachable p → Reachable (gst_parse_cstring p s).1

/-- Parser states reachable through the public interface by runs in
    which the parse stack never exceeds the initial capacity of 10
    frames, at byte granularity: a gst_parse_cstring call is one
    status reset followed by dispatch_char steps on non-NUL bytes
    while the status is pending.  The stack-depth side condition on
    each step says the C parser_push growth path is never taken
    during the run: within one dispatch_char the stack is longest
    either on entry or on exit (every redispatch iteration of the
    loop pops a frame, or pushes one and then stops redispatching at
    once), so bounding the per-byte states bounds every intermediate
    stack, and every push of the run then happens with
    count < cap = 10, where the C push and the list-model push
    agree. -/
inductive ReachableSmall : GstParser → Prop
  | init : ReachableSmall gst_parser_new
  | reset (p : GstParser) : ReachableSmall p →
      ReachableSmall { p with status := GstParserStatus.pending }
  | step (p : GstParser) (c : Nat) : ReachableSmall p →
      p.status = GstParserStatus.pending → c ≠ 0 →
      (dispatch_char p c).data.length ≤ 10 →
      ReachableSmall (dispatch_char p c)

/-- Allocation-level view of the parse stack for parser_push: the
    backing array (bottom frame first, as the C array stores it), the
    live frame count and the capacity. -/
structure ParserArr where
  cap : Nat
  count : Nat
  data : List GstParseState

/-- parser_push at the allocation level.  When count has reached cap
    the C code allocates a fresh array of 2 * count BYTES (not
    2 * count frames - the sizeof factor is missing), installs it
    without copying a single old frame, and doubles cap; the junk
    argument stands for the uninitialized contents of that fresh
    allocation.  Then the count grows and the new top frame is
    written at index count - 1. -/
def parser_push_arr (ps : ParserArr) (junk : List GstParseState)
    (t : ParseType) (c : Nat) : ParserArr :=
  let ps1 := if ps.cap ≤ ps.count then { cap := 2 * ps.count, count := ps.count, data := junk }
             else ps
  { cap := ps1.cap, count := ps1.count + 1,
    data := ps1.data.set ps1.count (mk_frame t c) }

/- Supporting lemmas about the fraction arithmetic and exp10. -/

lemma GstNumber.toRat_mul (a b : GstNumber) : (a.mul b).toRat = a.toRat * b.toRat := by
  simp only [GstNumber.mul, GstNumber.toRat]
  push_cast
  ring

lemma exp10_loop_pow (fuel power : Nat) : ∀ cp, 1 ≤ cp → cp ≤ power →
    ∃ cp2, exp10_loop fuel power ⟨(10 : Int) ^ cp, 1⟩ cp = (⟨(10 : Int) ^ cp2, 1⟩, cp2)
      ∧ 1 ≤ cp2 ∧ cp2 ≤ power := by
  induction fuel with
  | zero => exact fun cp h1 h2 => ⟨cp, rfl, h1, h2⟩
  | succ n ih =>
      intro cp h1 h2
      by_cases h : cp * 2 ≤ power
      · have hsq : (⟨(10 : Int) ^ cp, 1⟩ : GstNumber).mul ⟨(10 : Int) ^ cp, 1⟩
            = ⟨(10 : Int) ^ (cp * 2), 1⟩ := by
          simp only [GstNumber.mul, GstNumber.mk.injEq, ← pow_add, mul_one]
          refine ⟨?_, trivial⟩
          congr 1
          omega
        simp only [exp10_loop, if_pos h, hsq]
        exact ih (cp * 2) (by omega) h
      · exact ⟨cp, by simp [exp10_loop, h], h1, h2⟩

lemma exp10_go_eq_pow (fuel : Nat) : ∀ power, power ≤ fuel →
    exp10_go fuel power = ⟨(10 : Int) ^ power, 1⟩ := by
  induction fuel with
  | zero =>
      intro power h
      have h0 : power = 0 := by omega
      subst h0
      simp [exp10_go]
  | succ n ih =>
      intro power h
      by_cases h0 : power = 0
      · subst h0
        simp [exp10_go]
      · have hstart : (⟨(10 : Int), 1⟩ : GstNumber) = ⟨(10 : Int) ^ 1, 1⟩ := by norm_num
        obtain ⟨cp2, heq, hc1, hc2⟩ :=
          exp10_loop_pow power power 1 le_rfl (by omega)
        have heq2 : exp10_loop power power ⟨(10 : Int), 1⟩ 1 = (⟨(10 : Int) ^ cp2, 1⟩, cp2) := by
          rw [hstart]
          exact heq
        simp only [exp10_go, if_neg h0, heq2]
        rw [ih (power - cp2) (by omega)]
        simp only [GstNumber.mul, GstNumber.mk.injEq, ← pow_add, mul_one]
        refine ⟨?_, trivial⟩
        congr 1
        omega

lemma exp10Nat_eq_pow (power : Nat) : exp10Nat power = ⟨(10 : Int) ^ power, 1⟩ :=
  exp10_go_eq_pow power power le_rfl

lemma exp10_toRat (z : Int) : (exp10 z).toRat = (10 : ℚ) ^ z := by
  by_cases h : 0 ≤ z
  · rw [exp10, if_pos h, exp10Nat_eq_pow]
    simp only [GstNumber.toRat]
    push_cast
    rw [div_one, ← zpow_natCast, Int.toNat_of_nonneg h]
  · rw [exp10, if_neg h, exp10Nat_eq_pow]
    simp only [GstNumber.div, GstNumber.toRat]
    push_cast
    rw [← zpow_natCast (10 : ℚ) (-z).toNat]
    rw [show (((-z).toNat : ℤ)) = -z from Int.toNat_of_nonneg (by omega)]
    rw [one_div, one_mul, ← zpow_neg, neg_neg]

/-- C6: the numeric decoder maps the token "1e2" to the number 100
    and the token "-0.5" to the number -0.5; on byte 101 "e" (and 69
    "E") in non-force-integer mode it recursively decodes the
    remaining bytes in force-integer mode, fails the whole literal
    when that recursive decode fails, otherwise multiplies by
    exp10 of the truncated exponent and stops scanning (the whole
    remainder of the literal is the exponent); and exp10, computed by
    squaring, equals 10 raised to the integer power. -/
theorem read_number_exponent_semantics :
    (read_number (strBytes "1e2") false).map GstNumber.toRat = some (100 : ℚ)
    ∧ (read_number (strBytes "-0.5") false).map GstNumber.toRat = some (-(1 / 2) : ℚ)
    ∧ (∀ sign accum place rest, rn_loop_noint (101 :: rest) sign accum place =
        Option.map (fun q => (accum.mul ⟨sign, 1⟩).mul (exp10 q.toIntTrunc))
          (read_number rest true))
    ∧ (∀ sign accum place rest, rn_loop_noint (69 :: rest) sign accum place =
        Option.map (fun q => (accum.mul ⟨sign, 1⟩).mul (exp10 q.toIntTrunc))
          (read_number rest true))
    ∧ (∀ z : Int, (exp10 z).toRat = (10 : ℚ) ^ z) := by
  refine ⟨?_, ?_, ?_, ?_, exp10_toRat⟩
  · rw [show read_number (strBytes "1e2") false = some ⟨100, 1⟩ from rfl]
    simp [GstNumber.toRat]
  · rw [show read_number (strBytes "-0.5") false = some ⟨-5, 10⟩ from rfl]
    norm_num [GstNumber.toRat]
  · intro sign accum place rest
    cases rest with
    | nil => rfl
    | cons r rs =>
        simp only [read_number, if_pos]
        cases hrn : read_number_int (r :: rs) with
        | none => simp [rn_loop_noint, hrn]
        | some q => simp [rn_loop_noint, hrn]
  · intro sign accum place rest
    cases rest with
    | nil => rfl
    | cons r rs =>
        simp only [read_number, if_pos]
        cases hrn : read_number_int (r :: rs) with
        | none => simp [rn_loop_noint, hrn]
        | some q => simp [rn_loop_noint, hrn]

/-- C3 counterexample: the input "." contains zero ASCII digit bytes,
    yet read_number succeeds on it, producing the number 0 (the 46
    "." branch sets place and the loop then ends with accum still 0);
    "+." likewise succeeds. -/
theorem read_number_dot_succeeds :
    read_number (strBytes ".") false = some ⟨0, 1⟩
    ∧ (read_number (strBytes ".") false).map GstNumber.toRat = some (0 : ℚ)
    ∧ read_number (strBytes "+.") false ≠ none := by
  refine ⟨rfl, ?_, by decide⟩
  rw [show read_number (strBytes ".") false = some ⟨0, 1⟩ from rfl]
  simp [GstNumber.toRat]

/-- C3 as amended: an input consisting of just a sign byte (43 "+" or
    45 "-"), or the empty input, fails the numeric decoder (rather
    than every zero-digit input failing, since "." succeeds), and
    that failure is not a parser error: in build_token the token
    falls through to the other classifications, here to a bare-symbol
    string, with the parser left untouched. -/
theorem sign_only_fails_and_falls_through :
    read_number (strBytes "+") false = none
    ∧ read_number (strBytes "-") false = none
    ∧ read_number [] false = none
    ∧ (∀ p, build_token p (strBytes "+") = (p, GstValue.str (strBytes "+")))
    ∧ (∀ p, build_token p (strBytes "-") = (p, GstValue.str (strBytes "-"))) :=
  ⟨rfl, rfl, rfl, fun _ => rfl, fun _ => rfl⟩

/- Supporting lemmas about the feeding loop. -/

lemma parse_loop_of_not_pending (p : GstParser) (s : List Nat)
    (h : p.status ≠ GstParserStatus.pending) : parse_loop p s = (p, 0) := by
  cases s with
  | nil => rfl
  | cons c rest => simp [parse_loop, h]

lemma set_pending_self (p : GstParser) (hp : p.status = GstParserStatus.pending) :
    { p with status := GstParserStatus.pending } = p := by
  rw [← hp]

lemma gst_parse_cstring_pending (p : GstParser) (hp : p.status = GstParserStatus.pending)
    (s : List Nat) : gst_parse_cstring p s = parse_loop p s := by
  unfold gst_parse_cstring
  rw [set_pending_self p hp]

lemma parse_loop_append (s t : List Nat) : ∀ p : GstParser, (∀ c ∈ s, c ≠ 0) →
    parse_loop p (s ++ t) =
      if (parse_loop p s).1.status = GstParserStatus.pending then
        ((parse_loop (parse_loop p s).1 t).1,
          (parse_loop p s).2 + (parse_loop (parse_loop p s).1 t).2)
      else parse_loop p s := by
  induction s with
  | nil =>
      intro p _
      by_cases h : p.status = GstParserStatus.pending
      · simp [parse_loop, h]
      · simp [parse_loop, h, parse_loop_of_not_pending p t h]
  | cons c s2 ih =>
      intro p hs
      have hc : c ≠ 0 := hs c (by simp)
      by_cases hp : p.status = GstParserStatus.pending
      · have hcond : p.status = GstParserStatus.pending ∧ c ≠ 0 := ⟨hp, hc⟩
        simp only [List.cons_append, parse_loop, if_pos hcond, List.append_eq]
        rw [ih (dispatch_char p c) (fun x hx => hs x (by simp [hx]))]
        by_cases h2 : (parse_loop (dispatch_char p c) s2).1.status = GstParserStatus.pending
        · simp only [if_pos h2]
          congr 1
          omega
        · simp only [if_neg h2]
      · have hcond : ¬(p.status = GstParserStatus.pending ∧ c ≠ 0) := fun hx => hp hx.1
        simp [parse_loop, hcond, hp]

lemma parse_loop_stops_at_nul (t : List Nat) : ∀ (s : List Nat) (p : GstParser),
    (∀ c ∈ s, c ≠ 0) → parse_loop p (s ++ 0 :: t) = parse_loop p s := by
  intro s
  induction s with
  | nil =>
      intro p _
      simp [parse_loop]
  | cons c s2 ih =>
      intro p hs
      have hc : c ≠ 0 := hs c (by simp)
      by_cases hp : p.status = GstParserStatus.pending
      · have hcond : p.status = GstParserStatus.pending ∧ c ≠ 0 := ⟨hp, hc⟩
        simp only [List.cons_append, parse_loop, if_pos hcond, List.append_eq]
        rw [ih (dispatch_char p c) (fun x hx => hs x (by simp [hx]))]
      · have hcond : ¬(p.status = GstParserStatus.pending ∧ c ≠ 0) := fun hx => hp hx.1
        simp [parse_loop, hcond]

lemma feed_chunks_while_pending_of_not_pending (chunks : List (List Nat)) (p : GstParser)
    (h : p.status ≠ GstParserStatus.pending) :
    feed_chunks_while_pending p chunks = (p, 0) := by
  cases chunks with
  | nil => rfl
  | cons ch rest => simp [feed_chunks_while_pending, h]

/-- C10: the whitespace class does include the NUL byte 0, but the
    public feed entry point stops at the first NUL without
    dispatching or counting it: whatever follows the first NUL of the
    input, including the NUL itself, leaves the outcome and the
    byte count of the call exactly as if the input had ended
    there. -/
theorem nul_stops_feed_unconsumed :
    is_whitespace 0 = true
    ∧ (∀ (p : GstParser) (s t : List Nat), (∀ c ∈ s, c ≠ 0) →
        gst_parse_cstring p (s ++ 0 :: t) = gst_parse_cstring p s) := by
  refine ⟨rfl, fun p s t hs => ?_⟩
  unfold gst_parse_cstring
  exact parse_loop_stops_at_nul t s _ hs

/-- Witness for C10 at a concrete input: a NUL inserted inside
    "()" hides the closing delimiter entirely. -/
theorem nul_stops_feed_unconsumed_witness :
    is_whitespace 0 = true
    ∧ gst_parse_cstring gst_parser_new ([40] ++ 0 :: [41])
        = gst_parse_cstring gst_parser_new [40] :=
  ⟨nul_stops_feed_unconsumed.1,
   nul_stops_feed_unconsumed.2 gst_parser_new [40] [41] (by decide)⟩

/-- C4 counterexample: after ")" drives a fresh parser to Error, a
    further gst_parse_cstring call with "x" processes a byte (count
    1), flips the status back to pending and changes the parse stack,
    because the entry point unconditionally resets the status to
    pending before its loop. -/
theorem feed_after_error_consumes_bytes :
    (gst_parse_cstring gst_parser_new [41]).1.status = GstParserStatus.error
    ∧ (gst_parse_cstring (gst_parse_cstring gst_parser_new [41]).1 [120]).2 = 1
    ∧ (gst_parse_cstring (gst_parse_cstring gst_parser_new [41]).1 [120]).1.status
        = GstParserStatus.pending
    ∧ (gst_parse_cstring (gst_parse_cstring gst_parser_new [41]).1 [120]).1.data
        ≠ (gst_parse_cstring gst_parser_new [41]).1.data := by
  refine ⟨rfl, rfl, rfl, ?_⟩
  show [GstParseState.token [120], GstParseState.root] ≠ [GstParseState.root]
  simp

/-- C4 as amended: Error (or Complete) stops byte processing only
    within the current feed call: once the status has left pending,
    appending further bytes to the same call changes nothing - but
    the outcome is not terminal across calls, since each new
    gst_parse_cstring call resets the status to pending and resumes
    consuming bytes on the existing stack (see the counterexample
    feed_after_error_consumes_bytes). -/
theorem status_stops_bytes_within_call (p : GstParser) (s t : List Nat)
    (hs : ∀ c ∈ s, c ≠ 0)
    (h : (gst_parse_cstring p s).1.status ≠ GstParserStatus.pending) :
    gst_parse_cstring p (s ++ t) = gst_parse_cstring p s := by
  unfold gst_parse_cstring at *
  rw [parse_loop_append s t _ hs, if_neg h]

/-- Witness for C4 at a concrete input: the error on ")" makes the
    trailing "x" of the same call irrelevant. -/
theorem status_stops_bytes_within_call_witness :
    (∀ c ∈ [41], c ≠ 0)
    ∧ (gst_parse_cstring gst_parser_new [41]).1.status ≠ GstParserStatus.pending
    ∧ gst_parse_cstring gst_parser_new ([41] ++ [120])
        = gst_parse_cstring gst_parser_new [41] :=
  ⟨by decide, by decide,
   status_stops_bytes_within_call gst_parser_new [41] [120] (by decide) (by decide)⟩

/-- C1 counterexample: the NUL-free sequence ")x" fed in one call
    gives Error after 1 byte; fed as the two chunks ")" and "x" it
    gives Pending after 2 bytes, because the second call resets the
    Error status and keeps consuming.  Final status and total byte
    count both differ. -/
theorem single_vs_chunked_mismatch :
    List.flatten [[41], [120]] = [41, 120]
    ∧ (gst_parse_cstring gst_parser_new [41, 120]).1.status = GstParserStatus.error
    ∧ (gst_parse_cstring gst_parser_new [41, 120]).2 = 1
    ∧ (feed_chunks gst_parser_new [[41], [120]]).1.status = GstParserStatus.pending
    ∧ (feed_chunks gst_parser_new [[41], [120]]).2 = 2 :=
  ⟨rfl, rfl, rfl, rfl, rfl⟩

/-- C1 as amended: for NUL-free input, feeding in one call and
    feeding split into arbitrarily many chunks at arbitrary byte
    boundaries agree on the final parser (status, value, error,
    index) and on the total consumed byte count, PROVIDED the chunked
    caller stops feeding once the status leaves pending, as section 3
    of the spec requires of callers; without that proviso the claim
    fails (see single_vs_chunked_mismatch). -/
theorem chunked_feed_agrees_while_pending : ∀ (chunks : List (List Nat)) (p : GstParser),
    p.status = GstParserStatus.pending →
    (∀ ch ∈ chunks, ∀ c ∈ ch, c ≠ 0) →
    feed_chunks_while_pending p chunks = gst_parse_cstring p chunks.flatten := by
  intro chunks
  induction chunks with
  | nil =>
      intro p hp _
      show (p, 0) = gst_parse_cstring p []
      rw [gst_parse_cstring_pending p hp]
      rfl
  | cons ch rest ih =>
      intro p hp hnul
      have hch : ∀ c ∈ ch, c ≠ 0 := hnul ch (by simp)
      have hrest : ∀ l ∈ rest, ∀ c ∈ l, c ≠ 0 := fun l hl => hnul l (by simp [hl])
      rw [show (ch :: rest).flatten = ch ++ rest.flatten from rfl,
        gst_parse_cstring_pending p hp, parse_loop_append ch rest.flatten p hch]
      simp only [feed_chunks_while_pending, if_pos hp]
      rw [gst_parse_cstring_pending p hp]
      by_cases h2 : (parse_loop p ch).1.status = GstParserStatus.pending
      · rw [ih (parse_loop p ch).1 h2 hrest, if_pos h2,
          gst_parse_cstring_pending (parse_loop p ch).1 h2]
      · rw [feed_chunks_while_pending_of_not_pending rest (parse_loop p ch).1 h2, if_neg h2]
        simp

/-- Witness for C1 as amended, at the concrete split "(" / "1)" of
    the input "(1)". -/
theorem chunked_feed_agrees_while_pending_witness :
    gst_parser_new.status = GstParserStatus.pending
    ∧ (∀ ch ∈ [[40], [49, 41]], ∀ c ∈ ch, c ≠ 0)
    ∧ feed_chunks_while_pending gst_parser_new [[40], [49, 41]]
        = gst_parse_cstring gst_parser_new (List.flatten [[40], [49, 41]]) :=
  ⟨rfl, by decide,
   chunked_feed_agrees_while_pending [[40], [49, 41]] gst_parser_new rfl (by decide)⟩

/- Supporting lemma for the token classifier. -/

lemma check_str_const_iff : ∀ r s : List Nat, check_str_const r s = true ↔ r = s := by
  intro r
  induction r with
  | nil =>
      intro s
      cases s <;> simp [check_str_const]
  | cons a r2 ih =>
      intro s
      cases s with
      | nil => simp [check_str_const]
      | cons b s2 =>
          by_cases hab : a = b
          · subst hab
            simp [check_str_const, ih s2]
          · simp [check_str_const, hab]

/-- C5: token bytes are classified with exactly the stated
    precedence: a successful numeric decode yields a Number; else the
    exact bytes "nil" / "false" / "true" yield Nil / Boolean false /
    Boolean true; else a leading ASCII digit raises the error
    "Symbols cannot start with digits." (still producing a nil
    value); otherwise the raw bytes become a bare-symbol String.  In
    particular "truex" is the string "truex" and "1abc" is the digit
    error. -/
theorem build_token_classification_precedence :
    (∀ (p : GstParser) (buf : List Nat) (n : GstNumber), read_number buf false = some n →
        build_token p buf = (p, GstValue.number n))
    ∧ (∀ p, build_token p (strBytes "nil") = (p, GstValue.nil))
    ∧ (∀ p, build_token p (strBytes "false") = (p, GstValue.boolean false))
    ∧ (∀ p, build_token p (strBytes "true") = (p, GstValue.boolean true))
    ∧ (∀ (p : GstParser) (buf : List Nat), read_number buf false = none →
        buf ≠ strBytes "nil" → buf ≠ strBytes "false" → buf ≠ strBytes "true" →
        48 ≤ buf.headD 0 → buf.headD 0 ≤ 57 →
        build_token p buf = (p_error p "Symbols cannot start with digits.", GstValue.nil))
    ∧ (∀ (p : GstParser) (buf : List Nat), read_number buf false = none →
        buf ≠ strBytes "nil" → buf ≠ strBytes "false" → buf ≠ strBytes "true" →
        ¬(48 ≤ buf.headD 0 ∧ buf.headD 0 ≤ 57) →
        build_token p buf = (p, GstValue.str buf))
    ∧ (∀ p, build_token p (strBytes "truex") = (p, GstValue.str (strBytes "truex")))
    ∧ (∀ p, build_token p (strBytes "1abc")
        = (p_error p "Symbols cannot start with digits.", GstValue.nil)) := by
  refine ⟨?_, fun _ => rfl, fun _ => rfl, fun _ => rfl, ?_, ?_, fun _ => rfl, fun _ => rfl⟩
  · intro p buf n h
    simp [build_token, h]
  · intro p buf h hn hf ht hd1 hd2
    have c1 : ¬ (check_str_const (strBytes "nil") buf = true) := by
      rw [check_str_const_iff]
      exact fun he => hn he.symm
    have c2 : ¬ (check_str_const (strBytes "false") buf = true) := by
      rw [check_str_const_iff]
      exact fun he => hf he.symm
    have c3 : ¬ (check_str_const (strBytes "true") buf = true) := by
      rw [check_str_const_iff]
      exact fun he => ht he.symm
    simp only [build_token, h]
    rw [if_neg c1, if_neg c2, if_neg c3, if_pos ⟨hd1, hd2⟩]
  · intro p buf h hn hf ht hd
    have c1 : ¬ (check_str_const (strBytes "nil") buf = true) := by
      rw [check_str_const_iff]
      exact fun he => hn he.symm
    have c2 : ¬ (check_str_const (strBytes "false") buf = true) := by
      rw [check_str_const_iff]
      exact fun he => hf he.symm
    have c3 : ¬ (check_str_const (strBytes "true") buf = true) := by
      rw [check_str_const_iff]
      exact fun he => ht he.symm
    simp only [build_token, h]
    rw [if_neg c1, if_neg c2, if_neg c3, if_neg hd]

/-- Witness for C5: the number and bare-symbol branches at concrete
    tokens. -/
theorem build_token_classification_precedence_witness :
    build_token gst_parser_new (strBytes "2") = (gst_parser_new, GstValue.number ⟨2, 1⟩)
    ∧ build_token gst_parser_new (strBytes "truex")
        = (gst_parser_new, GstValue.str (strBytes "truex")) :=
  ⟨build_token_classification_precedence.1 gst_parser_new (strBytes "2") ⟨2, 1⟩ rfl,
   build_token_classification_precedence.2.2.2.2.2.2.1 gst_parser_new⟩

/-- C9: the error "Symbols cannot start with digits." is not atomic:
    feeding "(1a)" pops the token frame and still appends a Nil value
    into the enclosing form frame's item array while flipping the
    status to Error, so the parse state is mutated by the failing
    classification. -/
theorem digit_symbol_error_mutates_state :
    (gst_parse_cstring gst_parser_new (strBytes "(1a)")).1.status = GstParserStatus.error
    ∧ (gst_parse_cstring gst_parser_new (strBytes "(1a)")).1.error
        = some "Symbols cannot start with digits."
    ∧ (gst_parse_cstring gst_parser_new (strBytes "(1a)")).1.data
        = [GstParseState.form 41 [GstValue.nil], GstParseState.root]
    ∧ (gst_parse_cstring gst_parser_new (strBytes "(1a)")).2 = 4 :=
  ⟨rfl, rfl, rfl, rfl⟩

/-- C2: at capacity (count = cap) parser_push installs a fresh
    uninitialized allocation without copying the existing frames, so
    they are lost: pushing onto a full one-slot stack holding a form
    frame with one accumulated item leaves the bottom slot equal to
    the junk contents of the new allocation, and the result does not
    depend on the old frames at all (here the same push over two
    different old stacks produces identical results). -/
theorem parser_push_at_capacity_loses_frames :
    (parser_push_arr ⟨1, 1, [GstParseState.form 41 [GstValue.nil]]⟩
        [GstParseState.root, GstParseState.root] ParseType.ptForm 40)
      = ⟨2, 2, [GstParseState.root, GstParseState.form 41 []]⟩
    ∧ (parser_push_arr ⟨1, 1, [GstParseState.form 41 [GstValue.nil]]⟩
          [GstParseState.root, GstParseState.root] ParseType.ptForm 40)
        = (parser_push_arr ⟨1, 1, [GstParseState.token [49]]⟩
            [GstParseState.root, GstParseState.root] ParseType.ptForm 40) :=
  ⟨rfl, rfl⟩

/-- C7: in the base sub-state an unescaped 34 double quote pops the
    string frame and appends to the newly exposed frame a 2-element
    sequence (quote, accumulated bytes) - never the bare string - and
    the full input with the two-byte escape 92 110 produces
    exactly that wrapped value with the decoded newline byte 10. -/
theorem string_close_quote_wraps :
    (∀ (p : GstParser) (buf : List Nat) (rest : List GstParseState),
        p.data = GstParseState.pstring buf StrState.base :: rest →
        string_state p 34 =
          (parser_append { p with data := rest }
            (GstValue.array [GstValue.str (strBytes "quote"), GstValue.str buf]), true))
    ∧ (gst_parse_cstring gst_parser_new (strBytes "\"ab\\ncd\"")).1.status
        = GstParserStatus.full
    ∧ (gst_parse_cstring gst_parser_new (strBytes "\"ab\\ncd\"")).1.value
        = GstValue.array [GstValue.str (strBytes "quote"), GstValue.str [97, 98, 10, 99, 100]] := by
  refine ⟨?_, rfl, rfl⟩
  intro p buf rest h
  cases p with
  | mk d st er v ix =>
      simp only at h
      subst h
      rfl

/-- Witness for C7 at a concrete parser whose top frame is a string
    frame holding byte 97. -/
theorem string_close_quote_wraps_witness :
    string_state
        ⟨[GstParseState.pstring [97] StrState.base, GstParseState.root],
          GstParserStatus.pending, none, GstValue.nil, 0⟩ 34
      = (parser_append
          ⟨[GstParseState.root], GstParserStatus.pending, none, GstValue.nil, 0⟩
          (GstValue.array [GstValue.str (strBytes "quote"), GstValue.str [97]]), true) :=
  string_close_quote_wraps.1
    ⟨[GstParseState.pstring [97] StrState.base, GstParseState.root],
      GstParserStatus.pending, none, GstValue.nil, 0⟩ [97] [GstParseState.root] rfl

/- Supporting lemmas for the root-frame invariant. -/

lemma form_ne_root (d : Nat) (arr : List GstValue) :
    GstParseState.form d arr ≠ GstParseState.root :=
  fun hh => GstParseState.noConfusion hh

lemma pstring_ne_root (b : List Nat) (st : StrState) :
    GstParseState.pstring b st ≠ GstParseState.root :=
  fun hh => GstParseState.noConfusion hh

lemma token_ne_root (b : List Nat) :
    GstParseState.token b ≠ GstParseState.root :=
  fun hh => GstParseState.noConfusion hh

lemma stack_rooted_cons (a : GstParseState) (t : List GstParseState)
    (h : stack_rooted t) (ha : a ≠ GstParseState.root) : stack_rooted (a :: t) := by
  obtain ⟨rest, heq, hmem⟩ := h
  refine ⟨a :: rest, by rw [heq, List.cons_append], ?_⟩
  intro hm
  rcases List.mem_cons.mp hm with he | he
  · exact ha he.symm
  · exact hmem he

lemma stack_rooted_tail (a : GstParseState) (t : List GstParseState)
    (h : stack_rooted (a :: t)) (ha : a ≠ GstParseState.root) : stack_rooted t := by
  obtain ⟨rest, heq, hmem⟩ := h
  cases rest with
  | nil =>
      rw [List.nil_append] at heq
      injection heq with h1 h2
      exact absurd h1 ha
  | cons r rest2 =>
      rw [List.cons_append] at heq
      injection heq with h1 h2
      exact ⟨rest2, h2, fun hm => hmem (by simp [hm])⟩

lemma stack_rooted_replace (a b : GstParseState) (t : List GstParseState)
    (h : stack_rooted (a :: t)) (ha : a ≠ GstParseState.root)
    (hb : b ≠ GstParseState.root) : stack_rooted (b :: t) :=
  stack_rooted_cons b t (stack_rooted_tail a t h ha) hb

lemma build_token_fst_data (p : GstParser) (buf : List Nat) :
    (build_token p buf).1.data = p.data := by
  unfold build_token
  cases hrn : read_number buf false with
  | some n => simp only [hrn]
  | none =>
      simp only [hrn]
      split_ifs <;> rfl

lemma parser_append_rooted (p : GstParser) (x : GstValue) (h : stack_rooted p.data) :
    stack_rooted (parser_append p x).data := by
  cases p with
  | mk d st er v ix =>
      cases d with
      | nil => exact h
      | cons top rest =>
          cases top with
          | root => exact h
          | form fd arr => exact stack_rooted_replace _ _ _ h (form_ne_root _ _) (form_ne_root _ _)
          | pstring b s2 => exact h
          | token b => exact h

lemma root_state_rooted (p : GstParser) (c : Nat) (h : stack_rooted p.data) :
    stack_rooted (root_state p c).1.data := by
  unfold root_state
  split_ifs
  · exact h
  · exact stack_rooted_cons _ _ h (form_ne_root _ _)
  · exact stack_rooted_cons _ _ h (pstring_ne_root _ _)
  · exact h
  · exact stack_rooted_cons _ _ h (token_ne_root _)
  · exact h

lemma token_state_rooted (p : GstParser) (c : Nat) (h : stack_rooted p.data) :
    stack_rooted (token_state p c).1.data := by
  cases p with
  | mk d st er v ix =>
      cases d with
      | nil => exact h
      | cons top rest =>
          cases top with
          | root => exact h
          | form fd arr => exact h
          | pstring b s2 => exact h
          | token buf =>
              unfold token_state
              dsimp only
              split_ifs
              · apply parser_append_rooted
                rw [build_token_fst_data]
                exact stack_rooted_tail _ _ h (token_ne_root _)
              · exact stack_rooted_replace _ _ _ h (token_ne_root _) (token_ne_root _)
              · exact h

lemma string_state_rooted (p : GstParser) (c : Nat) (h : stack_rooted p.data) :
    stack_rooted (string_state p c).1.data := by
  cases p with
  | mk d st er v ix =>
      cases d with
      | nil => exact h
      | cons top rest =>
          cases top with
          | root => exact h
          | form fd arr => exact h
          | token b => exact h
          | pstring buf s2 =>
              cases s2 with
              | base =>
                  unfold string_state
                  dsimp only
                  split_ifs
                  · exact stack_rooted_replace _ _ _ h (pstring_ne_root _ _) (pstring_ne_root _ _)
                  · apply parser_append_rooted
                    exact stack_rooted_tail _ _ h (pstring_ne_root _ _)
                  · exact stack_rooted_replace _ _ _ h (pstring_ne_root _ _) (pstring_ne_root _ _)
              | escape =>
                  unfold string_state
                  dsimp only
                  cases he : escape_char c with
                  | some nc =>
                      simp only [he]
                      exact stack_rooted_replace _ _ _ h (pstring_ne_root _ _) (pstring_ne_root _ _)
                  | none =>
                      simp only [he]
                      exact h
              | escapeHex => exact h
              | escapeUnicode => exact h

lemma form_state_rooted (p : GstParser) (c : Nat) (h : stack_rooted p.data) :
    stack_rooted (form_state p c).1.data := by
  cases p with
  | mk d st er v ix =>
      cases d with
      | nil => exact root_state_rooted _ c h
      | cons top rest =>
          cases top with
          | root => exact root_state_rooted _ c h
          | pstring b s2 => exact root_state_rooted _ c h
          | token b => exact root_state_rooted _ c h
          | form fd arr =>
              unfold form_state
              dsimp only
              split_ifs
              · apply parser_append_rooted
                exact stack_rooted_tail _ _ h (form_ne_root _ _)
              · exact root_state_rooted _ c h

lemma dispatch_step_rooted (p : GstParser) (c : Nat) (h : stack_rooted p.data) :
    stack_rooted (dispatch_step p c).1.data := by
  cases hd : p.data with
  | nil =>
      unfold dispatch_step
      rw [hd]
      exact h
  | cons top rest =>
      unfold dispatch_step
      rw [hd]
      cases top with
      | root => exact root_state_rooted p c h
      | token b => exact token_state_rooted p c h
      | form fd arr => exact form_state_rooted p c h
      | pstring b s2 => exact string_state_rooted p c h

lemma dispatch_loop_rooted (fuel : Nat) : ∀ (p : GstParser) (c : Nat),
    stack_rooted p.data → stack_rooted (dispatch_loop fuel p c).data := by
  induction fuel with
  | zero => exact fun p c h => h
  | succ n ih =>
      intro p c h
      unfold dispatch_loop
      by_cases hp : p.status = GstParserStatus.pending
      · rw [if_pos hp]
        by_cases hdone : (dispatch_step p c).2 = true
        · simp only [hdone, if_true]
          exact dispatch_step_rooted p c h
        · rw [if_neg hdone]
          exact ih _ c (dispatch_step_rooted p c h)
      · rw [if_neg hp]
        exact h

lemma dispatch_char_rooted (p : GstParser) (c : Nat) (h : stack_rooted p.data) :
    stack_rooted (dispatch_char p c).data :=
  dispatch_loop_rooted (p.data.length + 2) p c h

lemma parse_loop_rooted : ∀ (s : List Nat) (p : GstParser),
    stack_rooted p.data → stack_rooted (parse_loop p s).1.data := by
  intro s
  induction s with
  | nil => exact fun p h => h
  | cons c rest ih =>
      intro p h
      unfold parse_loop
      by_cases hc : p.status = GstParserStatus.pending ∧ c ≠ 0
      · rw [if_pos hc]
        exact ih _ (dispatch_char_rooted p c h)
      · rw [if_neg hc]
        exact h

lemma gst_parse_cstring_rooted (p : GstParser) (s : List Nat) (h : stack_rooted p.data) :
    stack_rooted (gst_parse_cstring p s).1.data :=
  parse_loop_rooted s _ h

lemma reachable_rooted (p : GstParser) (hr : Reachable p) : stack_rooted p.data := by
  induction hr with
  | init => exact ⟨[], rfl, by simp⟩
  | step q s hq ih => exact gst_parse_cstring_rooted q s ih

lemma reachable_small_rooted (p : GstParser) (hr : ReachableSmall p) :
    stack_rooted p.data := by
  induction hr with
  | init => exact ⟨[], rfl, by simp⟩
  | reset q hq ih => exact ih
  | step q c hq hp hc hlen ih => exact dispatch_char_rooted q c ih

/-- C8 counterexample: nine opening parentheses drive a fresh parser
    to a Pending state whose stack holds 10 frames - the initial
    capacity - with the root frame at the bottom (index 0 of the C
    array, the last entry of the top-first list); the next push
    triggers parser_push's count >= cap growth path, which installs a
    fresh uncopied allocation: at the array level (bottom frame
    first, junk standing for the uninitialized new allocation) the
    bottom slot no longer holds the root frame, and the resulting
    stack does not depend on the old frames at all - the same push
    over a stack of 10 string frames gives the identical result, so
    the root frame at index 0 is not preserved on this reachable
    pending state. -/
theorem root_frame_lost_at_capacity :
    (gst_parse_cstring gst_parser_new (strBytes "(((((((((")).1.status
        = GstParserStatus.pending
    ∧ (gst_parse_cstring gst_parser_new (strBytes "(((((((((")).1.data.length = 10
    ∧ (gst_parse_cstring gst_parser_new (strBytes "(((((((((")).1.data.getLast?
        = some GstParseState.root
    ∧ (parser_push_arr
          ⟨10, 10, (gst_parse_cstring gst_parser_new (strBytes "(((((((((")).1.data.reverse⟩
          (List.replicate 20 (GstParseState.token [])) ParseType.ptForm 40).data.head?
        = some (GstParseState.token [])
    ∧ (parser_push_arr
          ⟨10, 10, (gst_parse_cstring gst_parser_new (strBytes "(((((((((")).1.data.reverse⟩
          (List.replicate 20 (GstParseState.token [])) ParseType.ptForm 40)
        = parser_push_arr
            ⟨10, 10, List.replicate 10 (GstParseState.pstring [] StrState.base)⟩
            (List.replicate 20 (GstParseState.token [])) ParseType.ptForm 40 :=
  ⟨rfl, rfl, rfl, rfl, rfl⟩

/-- C8 as amended: within the initial capacity - transitions from
    stacks strictly below 10 frames, and runs whose stacks never
    exceed 10 frames, so that the C push always takes its ordinary
    non-growth path, on which the list model is faithful - the four
    frame handlers preserve the stack shape "one root frame at the
    bottom and nowhere else" (in particular none of them ever pops
    the root frame), and every reachable pending parser state has a
    nonempty stack whose bottom (index 0 of the C array) is its
    unique root frame.  Unconditionally the claim fails on the code:
    at the first push with the stack at capacity the uncopied
    reallocation destroys the root frame
    (root_frame_lost_at_capacity). -/
theorem root_frame_invariant_within_capacity :
    (∀ (p : GstParser) (c : Nat), p.data.length < 10 → stack_rooted p.data →
        stack_rooted (root_state p c).1.data)
    ∧ (∀ (p : GstParser) (c : Nat), p.data.length < 10 → stack_rooted p.data →
        stack_rooted (token_state p c).1.data)
    ∧ (∀ (p : GstParser) (c : Nat), p.data.length < 10 → stack_rooted p.data →
        stack_rooted (string_state p c).1.data)
    ∧ (∀ (p : GstParser) (c : Nat), p.data.length < 10 → stack_rooted p.data →
        stack_rooted (form_state p c).1.data)
    ∧ (∀ p : GstParser, ReachableSmall p → p.status = GstParserStatus.pending →
        ∃ rest, p.data = rest ++ [GstParseState.root] ∧ GstParseState.root ∉ rest) :=
  ⟨fun p c _ h => root_state_rooted p c h,
   fun p c _ h => token_state_rooted p c h,
   fun p c _ h => string_state_rooted p c h,
   fun p c _ h => form_state_rooted p c h,
   fun p hr _ => reachable_small_rooted p hr⟩

/-- Witness for C8 as amended, at the fresh parser (stack depth 1,
    well below capacity) and one concrete transition. -/
theorem root_frame_invariant_within_capacity_witness :
    stack_rooted (root_state gst_parser_new 40).1.data
    ∧ ∃ rest, gst_parser_new.data = rest ++ [GstParseState.root]
        ∧ GstParseState.root ∉ rest :=
  ⟨root_frame_invariant_within_capacity.1 gst_parser_new 40 (by decide) ⟨[], rfl, by simp⟩,
   root_frame_invariant_within_capacity.2.2.2.2 gst_parser_new ReachableSmall.init rfl⟩

/- Fuel adequacy for the dispatch loop: one byte is redispatched at
   most stack length + 2 times, so the structural fuel dispatch_char
   passes never cuts the C while loop short. -/

lemma parser_append_length (p : GstParser) (x : GstValue) :
    (parser_append p x).data.length = p.data.length := by
  cases p with
  | mk d st er v ix =>
      cases d with
      | nil => rfl
      | cons top rest => cases top <;> rfl

lemma string_state_snd (p : GstParser) (c : Nat) : (string_state p c).2 = true := by
  cases p with
  | mk d st er v ix =>
      cases d with
      | nil => rfl
      | cons top rest =>
          cases top with
          | root => rfl
          | form fd arr => rfl
          | token b => rfl
          | pstring buf s2 =>
              cases s2 with
              | base =>
                  unfold string_state
                  dsimp only
                  split_ifs <;> rfl
              | escape =>
                  unfold string_state
                  dsimp only
                  cases escape_char c <;> rfl
              | escapeHex => rfl
              | escapeUnicode => rfl

lemma token_state_progress (p : GstParser) (c : Nat)
    (hf : (token_state p c).2 = false) :
    (token_state p c).1.data.length < p.data.length := by
  cases p with
  | mk d st er v ix =>
      cases d with
      | nil => exact Bool.noConfusion hf
      | cons top rest =>
          cases top with
          | root => exact Bool.noConfusion hf
          | form fd arr => exact Bool.noConfusion hf
          | pstring b s2 => exact Bool.noConfusion hf
          | token buf =>
              unfold token_state at hf ⊢
              dsimp only at hf ⊢
              split_ifs at hf ⊢ with h1 h2
              rw [parser_append_length, build_token_fst_data]
              have hpop : parser_pop ⟨GstParseState.token buf :: rest, st, er, v, ix⟩
                  = ⟨rest, st, er, v, ix⟩ := rfl
              rw [hpop]
              show rest.length < rest.length + 1
              omega

lemma root_state_progress (p : GstParser) (c : Nat)
    (hf : (root_state p c).2 = false) :
    (dispatch_step (root_state p c).1 c).2 = true := by
  unfold root_state at hf ⊢
  split_ifs at hf ⊢ with h1 h2 h3 h4 h5
  have he : dispatch_step (parser_push p ParseType.ptToken c) c
      = token_state (parser_push p ParseType.ptToken c) c := rfl
  rw [he]
  unfold token_state
  dsimp only [parser_push, mk_frame]
  have hncond : ¬(is_whitespace c = true ∨ decide (c = 41 ∨ c = 93 ∨ c = 125) = true) := by
    rintro (hw | hcl)
    · exact h4 hw
    · rcases of_decide_eq_true hcl with hc | hc | hc
      · exact h1 (Or.inr (Or.inl hc))
      · exact h1 (Or.inl hc)
      · exact h1 (Or.inr (Or.inr hc))
  rw [if_neg hncond, if_pos h5]

lemma dispatch_step_progress (p : GstParser) (c : Nat)
    (hf : (dispatch_step p c).2 = false) :
    (dispatch_step p c).1.data.length < p.data.length
    ∨ (dispatch_step (dispatch_step p c).1 c).2 = true := by
  cases p with
  | mk d st er v ix =>
      cases d with
      | nil => exact Bool.noConfusion hf
      | cons top rest =>
          cases top with
          | root =>
              have he : dispatch_step ⟨GstParseState.root :: rest, st, er, v, ix⟩ c
                  = root_state ⟨GstParseState.root :: rest, st, er, v, ix⟩ c := rfl
              rw [he] at hf ⊢
              exact Or.inr (root_state_progress _ c hf)
          | token buf =>
              have he : dispatch_step ⟨GstParseState.token buf :: rest, st, er, v, ix⟩ c
                  = token_state ⟨GstParseState.token buf :: rest, st, er, v, ix⟩ c := rfl
              rw [he] at hf ⊢
              exact Or.inl (token_state_progress _ c hf)
          | pstring buf s2 =>
              have he : dispatch_step ⟨GstParseState.pstring buf s2 :: rest, st, er, v, ix⟩ c
                  = string_state ⟨GstParseState.pstring buf s2 :: rest, st, er, v, ix⟩ c := rfl
              rw [he] at hf
              rw [string_state_snd] at hf
              exact Bool.noConfusion hf
          | form fd arr =>
              have he : dispatch_step ⟨GstParseState.form fd arr :: rest, st, er, v, ix⟩ c
                  = form_state ⟨GstParseState.form fd arr :: rest, st, er, v, ix⟩ c := rfl
              rw [he] at hf ⊢
              unfold form_state at hf ⊢
              dsimp only at hf ⊢
              split_ifs at hf ⊢ with hm
              exact Or.inr (root_state_progress _ c hf)

lemma dispatch_loop_stable : ∀ (fuel : Nat) (p : GstParser) (c : Nat),
    p.data.length + 2 ≤ fuel →
    dispatch_loop (fuel + 1) p c = dispatch_loop fuel p c := by
  intro fuel
  induction fuel using Nat.strong_induction_on with
  | _ fuel ih =>
      intro p c hb
      have unfold1 : ∀ (n : Nat) (q : GstParser),
          dispatch_loop (n + 1) q c =
            if q.status = GstParserStatus.pending then
              (if (dispatch_step q c).2 then (dispatch_step q c).1
               else dispatch_loop n (dispatch_step q c).1 c)
            else q := fun n q => rfl
      obtain ⟨f2, rfl⟩ : ∃ f2, fuel = f2 + 1 := ⟨fuel - 1, by omega⟩
      by_cases hp : p.status = GstParserStatus.pending
      · rw [unfold1 (f2 + 1) p, unfold1 f2 p, if_pos hp, if_pos hp]
        by_cases hdone : (dispatch_step p c).2 = true
        · rw [if_pos hdone, if_pos hdone]
        · rw [if_neg hdone, if_neg hdone]
          have hf : (dispatch_step p c).2 = false := by
            cases hx : (dispatch_step p c).2
            · rfl
            · exact absurd hx hdone
          rcases dispatch_step_progress p c hf with hlt | hnext
          · exact ih f2 (by omega) _ c (by omega)
          · obtain ⟨f3, rfl⟩ : ∃ f3, f2 = f3 + 1 := ⟨f2 - 1, by omega⟩
            by_cases hq : (dispatch_step p c).1.status = GstParserStatus.pending
            · rw [unfold1 (f3 + 1) ((dispatch_step p c).1), unfold1 f3 ((dispatch_step p c).1),
                if_pos hq, if_pos hq, if_pos hnext, if_pos hnext]
            · rw [unfold1 (f3 + 1) ((dispatch_step p c).1), unfold1 f3 ((dispatch_step p c).1),
                if_neg hq, if_neg hq]
      · rw [unfold1 (f2 + 1) p, unfold1 f2 p, if_neg hp, if_neg hp]

lemma dispatch_loop_gefuel : ∀ (k : Nat) (p : GstParser) (c : Nat),
    dispatch_loop (p.data.length + 2 + k) p c = dispatch_loop (p.data.length + 2) p c := by
  intro k
  induction k with
  | zero => exact fun p c => rfl
  | succ k2 ih =>
      intro p c
      have hstep : p.data.length + 2 + (k2 + 1) = (p.data.length + 2 + k2) + 1 := by omega
      rw [hstep, dispatch_loop_stable (p.data.length + 2 + k2) p c (by omega)]
      exact ih p c

/-- Any fuel at least stack length + 2 gives the same dispatch-loop
    result as the bound dispatch_char uses, so the fueled loop agrees
    with the unbounded C while loop on every state. -/
lemma dispatch_loop_fuel_enough (fuel : Nat) (p : GstParser) (c : Nat)
    (h : p.data.length + 2 ≤ fuel) :
    dispatch_loop fuel p c = dispatch_loop (p.data.length + 2) p c := by
  obtain ⟨k, rfl⟩ : ∃ k, fuel = p.data.length + 2 + k := ⟨fuel - (p.data.length + 2), by omega⟩
  exact dispatch_loop_gefuel k p c
